import Mathlib

/-!
Verification of the StaffManager component (src/components/Staff/index.tsx).

The component is a React function component holding a roster of staff
members in local state, together with several pending-action selections
(editing, viewing history, discounting, deleting, clearing history) and an
inline delete-error string.  Every event handler is an immutable update of
this state.  We embed the state and each handler as pure Lean functions.

External collaborators are parameters of the model:
  - `validateAdminPassword` (src/utils/passwords, not under src/) is an
    abstract `String → Bool`; every claim about it only conditions on its
    boolean result, so no concrete implementation is needed.
  - `storage.staff.save` success/failure is a `Bool` parameter of the
    delete handler; the list passed to `save` is reported in the outcome.
  - `Date.now()` is a `Nat` clock parameter; `Date.now().toString()` is
    `toString` on that clock value.
-/

/-- Discount status: `'active' | 'cancelled'` in `src/types/staff`. -/
inductive DiscountStatus where
  | active
  | cancelled
deriving DecidableEq, Repr

/-- A discount record: `id`, `date`, `amount`, `reason`, `status`,
optional `cancellationReason`. -/
structure Discount where
  id : String
  date : String
  amount : Int
  reason : String
  status : DiscountStatus
  cancellationReason : Option String
deriving DecidableEq, Repr

/-- A sale record; the component only ever touches `id` and
`commissionPaid`. -/
structure Sale where
  id : String
  commissionPaid : Bool
deriving DecidableEq, Repr

/-- A staff member: `id`, profile fields (`name`, `code`), `sales`,
`discounts`. -/
structure Staff where
  id : String
  name : String
  code : String
  sales : List Sale
  discounts : List Discount
deriving DecidableEq, Repr

/-- `Omit<Staff, 'id' | 'sales' | 'discounts'>`: the field values a form
submission carries. -/
structure StaffData where
  name : String
  code : String
deriving DecidableEq, Repr

/-- The local state of `StaffManager` (its `useState` hooks). -/
structure StaffState where
  staff : List Staff
  showStaffForm : Bool
  editingStaff : Option Staff
  selectedStaff : Option Staff
  cancellingDiscountId : Option String
  discountingStaff : Option Staff
  deletingStaffId : Option String
  clearingHistoryStaff : Option Staff
  deleteError : String
deriving DecidableEq, Repr

/-- The initial state of the component: all `useState` initial values. -/
def initialState : StaffState :=
  { staff := []
    showStaffForm := false
    editingStaff := none
    selectedStaff := none
    cancellingDiscountId := none
    discountingStaff := none
    deletingStaffId := none
    clearingHistoryStaff := none
    deleteError := "" }

/-- `handleAddStaff` (lines 50-59): builds the new member from the
submitted data with `id = Date.now().toString()` and empty `sales` and
`discounts`, appends it, and closes the form. -/
def handleAddStaff (now : Nat) (staffData : StaffData) (st : StaffState) :
    StaffState :=
  let newStaff : Staff :=
    { id := toString now
      name := staffData.name
      code := staffData.code
      sales := []
      discounts := [] }
  { st with staff := st.staff ++ [newStaff], showStaffForm := false }

/-- The spread `{ ...s, ...staffData }` in `handleEditStaff`: `staffData`
omits `id`, `sales`, `discounts`, so those fields of `s` survive. -/
def mergeStaffData (s : Staff) (staffData : StaffData) : Staff :=
  { s with name := staffData.name, code := staffData.code }

/-- `handleEditStaff` (lines 61-69): if a member is being edited, replace
the member whose id matches by the merge of the submitted data over it;
then clear the editing selection and close the form. -/
def handleEditStaff (staffData : StaffData) (st : StaffState) : StaffState :=
  match st.editingStaff with
  | some e =>
      { st with
        staff := st.staff.map fun s =>
          if s.id = e.id then mergeStaffData s staffData else s
        editingStaff := none
        showStaffForm := false }
  | none => st

/-- The per-discount update inside `handleCancelDiscount`: the discount
whose id matches becomes `{ ...d, status: 'cancelled',
cancellationReason: reason }`; every other discount is kept. -/
def cancelOneDiscount (did : String) (reason : String) (d : Discount) :
    Discount :=
  if d.id = did then
    { d with status := DiscountStatus.cancelled,
             cancellationReason := some reason }
  else d

/-- `handleCancelDiscount` (lines 93-109): if a discount id is pending
cancellation and a member is selected, map the selected member's
discounts through the cancellation update, then clear the pending id. -/
def handleCancelDiscount (reason : String) (st : StaffState) : StaffState :=
  match st.cancellingDiscountId, st.selectedStaff with
  | some did, some sel =>
      { st with
        staff := st.staff.map fun s =>
          if s.id = sel.id then
            { s with discounts := s.discounts.map (cancelOneDiscount did reason) }
          else s
        cancellingDiscountId := none }
  | _, _ => st

/-- Outcome of `handleDeleteStaff`: the final component state, whether the
blocking `alert` was shown, and the roster passed to `storage.staff.save`
(if any). -/
structure DeleteOutcome where
  state : StaffState
  alerted : Bool
  saved : Option (List Staff)
deriving DecidableEq, Repr

/-- `handleDeleteStaff` (lines 111-128).  An invalid password records the
inline error `'Contraseña incorrecta'` and returns.  Otherwise, with a
pending deletion id, the roster is filtered to remove members with that
id and saved; a save failure (the `.catch`) restores the pre-deletion
roster captured by the closure and shows a blocking alert.  The pending
id and the error string are cleared in either save outcome. -/
def handleDeleteStaff (validateAdminPassword : String → Bool)
    (saveOk : Bool) (password : String) (st : StaffState) : DeleteOutcome :=
  if validateAdminPassword password = false then
    { state := { st with deleteError := "Contraseña incorrecta" }
      alerted := false
      saved := none }
  else
    match st.deletingStaffId with
    | some did =>
        let updatedStaff := st.staff.filter fun s => s.id != did
        { state :=
            { st with
              staff := if saveOk then updatedStaff else st.staff
              deletingStaffId := none
              deleteError := "" }
          alerted := !saveOk
          saved := some updatedStaff }
    | none =>
        { state := st, alerted := false, saved := none }

/-- `handleClearHistory` (lines 130-150).  An invalid password returns
silently (no state change, no save).  Otherwise, with a pending
clear-history member, every member with that id has `sales` and
`discounts` reset to `[]`; the new roster is saved and the pending
member cleared.  Returns the new state and the roster passed to
`storage.staff.save` (if any). -/
def handleClearHistory (validateAdminPassword : String → Bool)
    (password : String) (st : StaffState) :
    StaffState × Option (List Staff) :=
  if validateAdminPassword password = false then
    (st, none)
  else
    match st.clearingHistoryStaff with
    | some m =>
        let updatedStaff := st.staff.map fun s =>
          if s.id = m.id then { s with sales := [], discounts := [] } else s
        ({ st with staff := updatedStaff, clearingHistoryStaff := none },
         some updatedStaff)
    | none => (st, none)

/-- What `storage.staff.load()` resolved to, as the component inspects it:
either a proper array of staff records or some non-array value
(`Array.isArray(data)` false), collapsed to one case. -/
inductive LoadedValue where
  | list (xs : List Staff)
  | notList
deriving DecidableEq, Repr

/-- Whether the load promise resolved or rejected. -/
inductive LoadResult where
  | ok (v : LoadedValue)
  | err
deriving DecidableEq, Repr

/-- Outcome of the mount effect: the roster state after the load settles
(starting from `initialState.staff = []`) and whether anything was
logged via `console.error`. -/
structure LoadOutcome where
  staff : List Staff
  logged : Bool
deriving DecidableEq, Repr

/-- `loadStaff` inside the mount effect (lines 26-39): a resolved array is
installed with `setStaff`; a resolved non-array is ignored (no `setStaff`,
no log), leaving the initial empty roster; a rejection logs the error and
sets the empty roster. -/
def loadStaff : LoadResult → LoadOutcome
  | LoadResult.ok (LoadedValue.list xs) => { staff := xs, logged := false }
  | LoadResult.ok LoadedValue.notList => { staff := [], logged := false }
  | LoadResult.err => { staff := [], logged := true }

/-- The change-triggered save effect (lines 42-48): `storage.staff.save`
is called with the roster exactly when `staff.length > 0`; `none` means
no call was made. -/
def saveEffect (staff : List Staff) : Option (List Staff) :=
  if staff.length > 0 then some staff else none

/-- The member ids of a roster. -/
def rosterIds (l : List Staff) : List String :=
  l.map fun s => s.id

/-! Sample records and states used to instantiate the theorems below on
concrete inputs. -/

def sampleStaff1 : Staff :=
  { id := "1", name := "Ana", code := "A1", sales := [], discounts := [] }

def sampleStaff2 : Staff :=
  { id := "2", name := "Bea", code := "B2", sales := [], discounts := [] }

def sampleData : StaffData := { name := "Cara", code := "C3" }

def sampleDiscount : Discount :=
  { id := "d1", date := "2024-01-01", amount := 50, reason := "promo",
    status := DiscountStatus.active, cancellationReason := none }

def sampleStaff3 : Staff :=
  { id := "3", name := "Eva", code := "E5", sales := [],
    discounts := [sampleDiscount, { sampleDiscount with id := "d2" }] }

def stDel : StaffState :=
  { initialState with
      staff := [sampleStaff1, sampleStaff2]
      deletingStaffId := some "1" }

def stEdit : StaffState :=
  { initialState with
      staff := [sampleStaff1, sampleStaff2]
      editingStaff := some sampleStaff1 }

def stClear : StaffState :=
  { initialState with
      staff := [sampleStaff1, sampleStaff2]
      clearingHistoryStaff := some sampleStaff1 }

def stCancel : StaffState :=
  { initialState with
      staff := [sampleStaff3, sampleStaff2]
      selectedStaff := some sampleStaff3
      cancellingDiscountId := some "d1" }

def clashStaff : Staff :=
  { id := "0", name := "Ana", code := "A1", sales := [], discounts := [] }

def clashState : StaffState :=
  { initialState with staff := [clashStaff] }

/-- Claim C7: `handleAddStaff` always yields a roster exactly one longer,
whose existing members are unchanged and whose last element is a new
member with empty `sales` and `discounts`. -/
theorem handleAddStaff_grows (now : Nat) (staffData : StaffData)
    (st : StaffState) :
    (handleAddStaff now staffData st).staff.length = st.staff.length + 1 ∧
    (handleAddStaff now staffData st).staff.take st.staff.length = st.staff ∧
    ∃ nm : Staff,
      (handleAddStaff now staffData st).staff.getLast? = some nm ∧
      nm.sales = [] ∧ nm.discounts = [] := by
  refine ⟨by simp [handleAddStaff], ?_, ?_⟩
  · simp [handleAddStaff, List.take_left]
  · refine ⟨{ id := toString now, name := staffData.name,
              code := staffData.code, sales := [], discounts := [] },
        ?_, rfl, rfl⟩
    simp [handleAddStaff]

/-- Claim C6: with an invalid admin password, `handleClearHistory` changes
nothing at all — roster, pending clear-history selection and error string
are untouched — and performs no save: a silent rejection, in contrast to
the delete flow which records an inline error. -/
theorem handleClearHistory_invalid_password (validateAdminPassword : String → Bool)
    (password : String) (st : StaffState)
    (h : validateAdminPassword password = false) :
    handleClearHistory validateAdminPassword password st = (st, none) := by
  simp [handleClearHistory, h]

theorem handleClearHistory_invalid_password_witness :
    handleClearHistory (fun _ => false) "x" stClear = (stClear, none) :=
  handleClearHistory_invalid_password (fun _ => false) "x" stClear rfl

/-- Claim C2: when the save issued after a deletion fails, the roster is
rolled back to the exact pre-deletion roster and the blocking alert is
shown. -/
theorem handleDeleteStaff_rollback (validateAdminPassword : String → Bool)
    (password : String) (st : StaffState) (did : String)
    (hval : validateAdminPassword password = true)
    (hsel : st.deletingStaffId = some did) :
    (handleDeleteStaff validateAdminPassword false password st).state.staff
      = st.staff ∧
    (handleDeleteStaff validateAdminPassword false password st).alerted = true := by
  simp [handleDeleteStaff, hval, hsel]

theorem handleDeleteStaff_rollback_witness :
    (handleDeleteStaff (fun _ => true) false "x" stDel).state.staff
      = stDel.staff ∧
    (handleDeleteStaff (fun _ => true) false "x" stDel).alerted = true :=
  handleDeleteStaff_rollback (fun _ => true) "x" stDel "1" rfl rfl

/-- Claim C9: the change-triggered save effect calls `storage.staff.save`
only on a non-empty roster (and then saves exactly that roster); on the
empty roster it makes no call. -/
theorem saveEffect_nonempty :
    (∀ l r : List Staff, saveEffect l = some r → l ≠ [] ∧ r = l) ∧
    saveEffect ([] : List Staff) = none := by
  constructor
  · intro l r h
    cases l with
    | nil => simp [saveEffect] at h
    | cons a t =>
        simp [saveEffect] at h
        exact ⟨by simp, h.symm⟩
  · rfl

theorem saveEffect_nonempty_witness :
    ([sampleStaff1] : List Staff) ≠ [] ∧ [sampleStaff1] = [sampleStaff1] :=
  saveEffect_nonempty.1 [sampleStaff1] [sampleStaff1] rfl

/-- Claim C4: editing keeps the roster length; at each position, a member
whose id differs from the edited one is unchanged (equality being the
shallow analog of referential identity), and the edited member keeps its
`id`, `sales` and `discounts`, with `name` and `code` replaced by the
submitted values. -/
theorem handleEditStaff_frame (staffData : StaffData) (st : StaffState)
    (e : Staff) (he : st.editingStaff = some e) :
    (handleEditStaff staffData st).staff.length = st.staff.length ∧
    ∀ (i : Nat) (s : Staff), st.staff[i]? = some s →
      (s.id ≠ e.id → (handleEditStaff staffData st).staff[i]? = some s) ∧
      (s.id = e.id → ∃ s2,
        (handleEditStaff staffData st).staff[i]? = some s2 ∧
        s2.id = s.id ∧ s2.sales = s.sales ∧ s2.discounts = s.discounts ∧
        s2.name = staffData.name ∧ s2.code = staffData.code) := by
  refine ⟨by simp [handleEditStaff, he], ?_⟩
  intro i s hs
  constructor
  · intro hne
    simp [handleEditStaff, he, List.getElem?_map, hs, hne]
  · intro heq
    refine ⟨mergeStaffData s staffData, ?_, rfl, rfl, rfl, rfl, rfl⟩
    simp [handleEditStaff, he, List.getElem?_map, hs, heq]

theorem handleEditStaff_frame_witness :
    (handleEditStaff sampleData stEdit).staff.length = 2 ∧
    (handleEditStaff sampleData stEdit).staff[1]? = some sampleStaff2 :=
  ⟨(handleEditStaff_frame sampleData stEdit sampleStaff1 rfl).1,
   ((handleEditStaff_frame sampleData stEdit sampleStaff1 rfl).2 1
      sampleStaff2 rfl).1 (by decide)⟩

/-- Claim C5: with a valid admin password and a pending clear-history
member, the member with that id ends with empty `sales` and `discounts`
and all other fields intact, and every member with a different id is
unchanged. -/
theorem handleClearHistory_frame (validateAdminPassword : String → Bool)
    (password : String) (st : StaffState) (m : Staff)
    (hval : validateAdminPassword password = true)
    (hsel : st.clearingHistoryStaff = some m) :
    (handleClearHistory validateAdminPassword password st).1.staff.length
      = st.staff.length ∧
    ∀ (i : Nat) (s : Staff), st.staff[i]? = some s →
      (s.id ≠ m.id →
        (handleClearHistory validateAdminPassword password st).1.staff[i]?
          = some s) ∧
      (s.id = m.id → ∃ s2,
        (handleClearHistory validateAdminPassword password st).1.staff[i]?
          = some s2 ∧
        s2.sales = [] ∧ s2.discounts = [] ∧
        s2.id = s.id ∧ s2.name = s.name ∧ s2.code = s.code) := by
  refine ⟨by simp [handleClearHistory, hval, hsel], ?_⟩
  intro i s hs
  constructor
  · intro hne
    simp [handleClearHistory, hval, hsel, List.getElem?_map, hs, hne]
  · intro heq
    refine ⟨{ s with sales := [], discounts := [] }, ?_, rfl, rfl, rfl, rfl, rfl⟩
    simp [handleClearHistory, hval, hsel, List.getElem?_map, hs, heq]

theorem handleClearHistory_frame_witness :
    ((handleClearHistory (fun _ => true) "x" stClear).1.staff[1]?
       = some sampleStaff2) ∧
    ∃ s2, (handleClearHistory (fun _ => true) "x" stClear).1.staff[0]?
       = some s2 ∧
      s2.sales = [] ∧ s2.discounts = [] ∧
      s2.id = sampleStaff1.id ∧ s2.name = sampleStaff1.name ∧
      s2.code = sampleStaff1.code :=
  ⟨((handleClearHistory_frame (fun _ => true) "x" stClear sampleStaff1
      rfl rfl).2 1 sampleStaff2 rfl).1 (by decide),
   ((handleClearHistory_frame (fun _ => true) "x" stClear sampleStaff1
      rfl rfl).2 0 sampleStaff1 rfl).2 rfl⟩

/-- Claim C3: with a pending cancellation id and a selected member, every
member whose id differs from the selected one is unchanged; the member
with the selected id keeps all other fields and its discount list length,
and at each position of its discounts a discount with a different id is
unchanged while one with the pending id gets status `cancelled` and
`cancellationReason` set to the given reason, with `amount`, `reason`,
`date` and `id` unchanged. -/
theorem handleCancelDiscount_spec (reason : String) (st : StaffState)
    (did : String) (sel : Staff)
    (hdid : st.cancellingDiscountId = some did)
    (hsel : st.selectedStaff = some sel) :
    (handleCancelDiscount reason st).staff.length = st.staff.length ∧
    ∀ (i : Nat) (s : Staff), st.staff[i]? = some s →
      (s.id ≠ sel.id → (handleCancelDiscount reason st).staff[i]? = some s) ∧
      (s.id = sel.id → ∃ s2,
        (handleCancelDiscount reason st).staff[i]? = some s2 ∧
        s2.id = s.id ∧ s2.name = s.name ∧ s2.code = s.code ∧
        s2.sales = s.sales ∧
        s2.discounts.length = s.discounts.length ∧
        ∀ (j : Nat) (d : Discount), s.discounts[j]? = some d →
          (d.id ≠ did → s2.discounts[j]? = some d) ∧
          (d.id = did → ∃ d2, s2.discounts[j]? = some d2 ∧
            d2.status = DiscountStatus.cancelled ∧
            d2.cancellationReason = some reason ∧
            d2.amount = d.amount ∧ d2.reason = d.reason ∧
            d2.date = d.date ∧ d2.id = d.id)) := by
  refine ⟨by simp [handleCancelDiscount, hdid, hsel], ?_⟩
  intro i s hs
  constructor
  · intro hne
    simp [handleCancelDiscount, hdid, hsel, List.getElem?_map, hs, hne]
  · intro heq
    refine ⟨{ s with discounts := s.discounts.map (cancelOneDiscount did reason) },
        ?_, rfl, rfl, rfl, rfl, by simp, ?_⟩
    · simp [handleCancelDiscount, hdid, hsel, List.getElem?_map, hs, heq]
    · intro j d hd
      constructor
      · intro hdne
        simp [List.getElem?_map, hd, cancelOneDiscount, hdne]
      · intro hdeq
        refine ⟨{ d with
              status := DiscountStatus.cancelled
              cancellationReason := some reason },
            ?_, rfl, rfl, rfl, rfl, rfl, rfl⟩
        simp [List.getElem?_map, hd, cancelOneDiscount, hdeq]

theorem handleCancelDiscount_spec_witness :
    ((handleCancelDiscount "error" stCancel).staff[1]? = some sampleStaff2) ∧
    ∃ s2, (handleCancelDiscount "error" stCancel).staff[0]? = some s2 ∧
      s2.id = sampleStaff3.id ∧ s2.name = sampleStaff3.name ∧
      s2.code = sampleStaff3.code ∧ s2.sales = sampleStaff3.sales ∧
      s2.discounts.length = sampleStaff3.discounts.length ∧
      ∀ (j : Nat) (d : Discount), sampleStaff3.discounts[j]? = some d →
        (d.id ≠ "d1" → s2.discounts[j]? = some d) ∧
        (d.id = "d1" → ∃ d2, s2.discounts[j]? = some d2 ∧
          d2.status = DiscountStatus.cancelled ∧
          d2.cancellationReason = some "error" ∧
          d2.amount = d.amount ∧ d2.reason = d.reason ∧
          d2.date = d.date ∧ d2.id = d.id) :=
  ⟨((handleCancelDiscount_spec "error" stCancel "d1" sampleStaff3
      rfl rfl).2 1 sampleStaff2 rfl).1 (by decide),
   ((handleCancelDiscount_spec "error" stCancel "d1" sampleStaff3
      rfl rfl).2 0 sampleStaff3 rfl).2 rfl⟩

/-- Claim C1: with an invalid password `handleDeleteStaff` leaves the
roster unchanged and records the non-empty inline error; with a valid
password and a pending deletion id held by exactly one member (the roster
splitting as `pre ++ m :: post` with `m` the unique holder of that id,
per the id-uniqueness invariant), and the save succeeding, the resulting
roster is the old one with exactly that member removed and every other
member unchanged. -/
theorem handleDeleteStaff_password_spec (validateAdminPassword : String → Bool)
    (password : String) (st : StaffState) (did : String)
    (pre post : List Staff) (m : Staff)
    (hsel : st.deletingStaffId = some did)
    (hsplit : st.staff = pre ++ m :: post)
    (hm : m.id = did)
    (hpre : ∀ s ∈ pre, s.id ≠ did)
    (hpost : ∀ s ∈ post, s.id ≠ did) :
    (validateAdminPassword password = false →
      (handleDeleteStaff validateAdminPassword true password st).state.staff
        = st.staff ∧
      (handleDeleteStaff validateAdminPassword true password st).state.deleteError
        ≠ "") ∧
    (validateAdminPassword password = true →
      (handleDeleteStaff validateAdminPassword true password st).state.staff
        = pre ++ post) := by
  constructor
  · intro h
    refine ⟨by simp [handleDeleteStaff, h], by simp [handleDeleteStaff, h]⟩
  · intro h
    have h1 : pre.filter (fun s => s.id != did) = pre :=
      List.filter_eq_self.mpr (by intro a ha; simpa using hpre a ha)
    have h2 : post.filter (fun s => s.id != did) = post :=
      List.filter_eq_self.mpr (by intro a ha; simpa using hpost a ha)
    simp [handleDeleteStaff, h, hsel, hsplit, List.filter_append,
      List.filter_cons, hm, h1, h2]

theorem handleDeleteStaff_password_spec_witness :
    ((handleDeleteStaff (fun _ => false) true "x" stDel).state.staff
        = stDel.staff ∧
     (handleDeleteStaff (fun _ => false) true "x" stDel).state.deleteError
        ≠ "") ∧
    (handleDeleteStaff (fun _ => true) true "x" stDel).state.staff
        = [sampleStaff2] :=
  ⟨(handleDeleteStaff_password_spec (fun _ => false) "x" stDel "1"
      [] [sampleStaff2] sampleStaff1 rfl rfl rfl
      (by simp) (by decide)).1 rfl,
   (handleDeleteStaff_password_spec (fun _ => true) "x" stDel "1"
      [] [sampleStaff2] sampleStaff1 rfl rfl rfl
      (by simp) (by decide)).2 rfl⟩

/-- Claim C8 counterexample: when `storage.staff.load()` resolves to a
value that is not an array, the component logs nothing — the claim that
"the anomaly is logged" fails on that input (the roster does stay
empty). -/
theorem loadStaff_notList_no_log :
    (loadStaff (LoadResult.ok LoadedValue.notList)).staff = [] ∧
    (loadStaff (LoadResult.ok LoadedValue.notList)).logged = false :=
  ⟨rfl, rfl⟩

/-- Claim C8 (amended): a resolved non-array value leaves the roster at
the initial empty roster but is silently ignored (nothing logged); only a
load failure both yields the empty roster and logs the anomaly. -/
theorem loadStaff_fallback :
    (loadStaff (LoadResult.ok LoadedValue.notList)).staff = [] ∧
    (loadStaff (LoadResult.ok LoadedValue.notList)).logged = false ∧
    (loadStaff LoadResult.err).staff = [] ∧
    (loadStaff LoadResult.err).logged = true :=
  ⟨rfl, rfl, rfl, rfl⟩

/-- Claim C10 counterexample: distinct ids are not preserved for every
clock value: a roster whose sole member has id `"0"` is duplicate-free,
but adding a member at clock value `0` (so `Date.now().toString()` is
`"0"`) produces two members with id `"0"`. -/
theorem handleAddStaff_id_clash :
    (rosterIds clashState.staff).Nodup ∧
    ¬ (rosterIds (handleAddStaff 0 sampleData clashState).staff).Nodup := by
  constructor
  · simp [rosterIds, clashState, clashStaff, initialState]
  · simp [rosterIds, handleAddStaff, clashState, clashStaff, initialState]
    rfl

/-- Claim C10 (amended): `handleAddStaff` preserves pairwise-distinct
member ids provided the id derived from the clock value does not already
occur in the roster. -/
theorem handleAddStaff_nodup (st : StaffState) (now : Nat) (staffData : StaffData)
    (h1 : (rosterIds st.staff).Nodup)
    (h2 : toString now ∉ rosterIds st.staff) :
    (rosterIds (handleAddStaff now staffData st).staff).Nodup := by
  have : rosterIds (handleAddStaff now staffData st).staff
      = rosterIds st.staff ++ [toString now] := by
    simp [handleAddStaff, rosterIds]
  rw [this]
  rw [List.nodup_append]
  refine ⟨h1, List.nodup_singleton _, ?_⟩
  intro x hx hmem
  simp at hmem
  exact h2 (hmem ▸ hx)

theorem handleAddStaff_nodup_witness :
    (rosterIds (handleAddStaff 1 sampleData clashState).staff).Nodup :=
  handleAddStaff_nodup clashState 1 sampleData (by decide) (by decide)
